import Mathlib

/-!
Verification development for the fritzconnection host-enumeration,
wake-on-LAN resolution and call-forwarding parsing layers.

The Python sources embedded here:
- fritzconnection/lib/fritzhosts.py         (FritzHosts)
- fritzconnection/cli/fritzwol.py           (wake_host)
- fritzconnection/fritzcallforwarding.py    (parse_call_forwarding_list)

Remote collaborators (the SOAP action invoker, the HTTP session, the XML
reader) are modelled as explicit function arguments; Python exceptions are
modelled as `Except` error values; the unbounded enumeration loops are
modelled with explicit fuel, where a `none` result stands for
non-termination within the given fuel.
-/

/-- Python values as they occur in the dictionaries this layer builds:
strings, booleans, integers and None. -/
inductive Value where
  | str (s : String)
  | bool (b : Bool)
  | int (n : Int)
  | null
deriving DecidableEq, Repr

/-- Error kinds of the fritzconnection exception family, modelled flat from
the spec (section 7 lists ArgumentError, LookUpError, ActionError,
AuthorizationError, ParseError; section 4.1 names the IndexOutOfRange
termination signal). The exception-class module itself is a collaborator
outside the embedded sources. -/
inductive FritzError where
  | indexOutOfRange
  | argumentError
  | lookUpError
  | actionError
  | authorizationError
  | parseError
deriving DecidableEq, Repr

/-- A raised Python exception: either a fritzconnection error carrying its
message, or one of the builtin exceptions the embedded code can raise. -/
inductive PyErr where
  | fritz (kind : FritzError) (msg : String)
  | attributeError
  | typeError
  | valueError
  | unboundLocalError
deriving DecidableEq, Repr

/-- `except IndexError` in `get_generic_host_entries` / `get_hosts_info`:
the IndexOutOfRange signal is the index-error of this error model. -/
def PyErr.isIndexError : PyErr → Bool
  | .fritz .indexOutOfRange _ => true
  | _ => false

/-- `except (FritzArgumentError, FritzLookUpError)` as used by
`get_host_status` and by the IP branch of `wake_host`. -/
def PyErr.isArgOrLookup : PyErr → Bool
  | .fritz .argumentError _ => true
  | .fritz .lookUpError _ => true
  | _ => false

/-- One raw host dict as returned by the GetGenericHostEntry action; the
fields are the vendor keys the embedded code reads. -/
structure RawHostEntry where
  NewIPAddress : String
  NewHostName : String
  NewMACAddress : String
  NewActive : Bool
  NewInterfaceType : String
  NewAddressSource : String
  NewLeaseTimeRemaining : Int
deriving DecidableEq, Repr

/-- A Python dict with string keys, as an association list in insertion
order. -/
def PyDict : Type := List (String × Value)

instance : DecidableEq PyDict := by
  unfold PyDict
  infer_instance

/-- `d[k]` lookup returning `none` for a missing key. -/
def dictGet (d : PyDict) (k : String) : Option Value :=
  (List.find? (fun p => p.1 == k) d).map Prod.snd

/-- Keys of a dict in insertion order. -/
def dictKeys (d : PyDict) : List String :=
  List.map Prod.fst d

/-- Python truthiness of the values above (used by `if host["status"]`). -/
def Value.truthy : Value → Bool
  | .str s => s ≠ ""
  | .bool b => b
  | .int n => n ≠ 0
  | .null => false

/-!
## FritzHosts.get_generic_host_entries (fritzhosts.py lines 59-69)

The per-index collaborator `lookup` stands for
`get_generic_host_entry(index)`, i.e. the `GetGenericHostEntry` SOAP call.
The Python loop `for index in itertools.count(): try: yield ... except
IndexError: break` is unbounded; `fuel` bounds the recursion and a `none`
result means the loop did not terminate within the fuel.
-/

def gen_entries_go (lookup : Nat → Except PyErr RawHostEntry) :
    Nat → Nat → Option (Except PyErr (List RawHostEntry))
  | 0, _ => none
  | fuel + 1, idx =>
    match lookup idx with
    | .ok h =>
      match gen_entries_go lookup fuel (idx + 1) with
      | some (.ok rest) => some (.ok (h :: rest))
      | other => other
    | .error e =>
      if e.isIndexError then some (.ok []) else some (.error e)

/-- `FritzHosts.get_generic_host_entries`, consumed into a list: every
invocation starts the index count at 0. -/
def get_generic_host_entries (lookup : Nat → Except PyErr RawHostEntry)
    (fuel : Nat) : Option (Except PyErr (List RawHostEntry)) :=
  gen_entries_go lookup fuel 0

/-!
## FritzHosts.get_hosts_info (fritzhosts.py lines 107-131)
-/

/-- The re-keying of one raw host dict performed inside the
`get_hosts_info` loop (fritzhosts.py lines 120-130). -/
def remap_host (host : RawHostEntry) : PyDict :=
  [ ("ip", .str host.NewIPAddress),
    ("name", .str host.NewHostName),
    ("mac", .str host.NewMACAddress),
    ("status", .bool host.NewActive),
    ("interface_type", .str host.NewInterfaceType),
    ("address_source", .str host.NewAddressSource),
    ("lease_time_remaining", .int host.NewLeaseTimeRemaining) ]

def hosts_info_go (lookup : Nat → Except PyErr RawHostEntry) :
    Nat → Nat → Option (Except PyErr (List PyDict))
  | 0, _ => none
  | fuel + 1, idx =>
    match lookup idx with
    | .ok host =>
      match hosts_info_go lookup fuel (idx + 1) with
      | some (.ok rest) => some (.ok (remap_host host :: rest))
      | other => other
    | .error e =>
      if e.isIndexError then some (.ok []) else some (.error e)

/-- `FritzHosts.get_hosts_info`: its own indexed loop (it does not reuse
the generator), stopping on the IndexError signal. -/
def get_hosts_info (lookup : Nat → Except PyErr RawHostEntry)
    (fuel : Nat) : Option (Except PyErr (List PyDict)) :=
  hosts_info_go lookup fuel 0

/-- The comprehension filter `if host["status"]` of `get_active_hosts`;
the key is always present in dicts built by `remap_host`. -/
def status_truthy (h : PyDict) : Bool :=
  match dictGet h "status" with
  | some v => v.truthy
  | none => false

/-- `FritzHosts.get_active_hosts` (fritzhosts.py lines 99-105):
`[host for host in self.get_hosts_info() if host["status"]]`. -/
def get_active_hosts (lookup : Nat → Except PyErr RawHostEntry)
    (fuel : Nat) : Option (Except PyErr (List PyDict)) :=
  match get_hosts_info lookup fuel with
  | some (.ok hosts) => some (.ok (List.filter status_truthy hosts))
  | other => other

/-!
## FritzHosts.get_host_status (fritzhosts.py lines 86-97)

`lookupMac` stands for `get_specific_host_entry(mac_address)`.
-/

def get_host_status (lookupMac : String → Except PyErr RawHostEntry)
    (mac_address : String) : Except PyErr (Option Bool) :=
  match lookupMac mac_address with
  | .ok result => .ok (some result.NewActive)
  | .error e => if e.isArgOrLookup then .ok none else .error e

/-!
## wake_host (cli/fritzwol.py lines 30-60)

The FritzHosts instance `fh` is modelled by its two lookup collaborators
(`get_specific_host_entry_by_ip` and `get_generic_host_entry`) plus the
fuel bounding the generator loop of the name branch. The calls `wake_host`
makes on `fh` are recorded in an invocation trace so that "no other
resolution path executes" and "the wake trigger is never invoked" are
statable.
-/

/-- The argparse namespace fields read by `wake_host`; `none` means the
flag was not given (argparse default `None`). -/
structure WolArgs where
  device_mac_address : Option String
  device_ip_address : Option String
  device_name : Option String
deriving DecidableEq, Repr

/-- Python truthiness of an optional string argument: `None` and the empty
string are falsy. -/
def truthyArg : Option String → Bool
  | none => false
  | some s => s ≠ ""

/-- One invocation `wake_host` performs on its FritzHosts collaborator. -/
inductive WolCall where
  | lookupByIp (ip : String)
  | enumEntries
  | wake (mac : String)
deriving DecidableEq, Repr

inductive WolOutcome where
  | woke (mac : String)
  | failed (e : PyErr)
  | diverged
deriving DecidableEq, Repr

structure WolEnv where
  ipLookup : String → Except PyErr RawHostEntry
  indexLookup : Nat → Except PyErr RawHostEntry
  fuel : Nat

/-- Python `str.lower()` on the basic-latin range, written structurally so
it computes by kernel reduction (core `String.toLower` recurses on byte
positions and does not). -/
def strLower (s : String) : String :=
  String.mk (List.map Char.toLower s.data)

/-- The single-quote character, kept out of string literals. -/
def squote : String := String.singleton (Char.ofNat 39)

/-- The name branch of `wake_host`: the `for entry in
fh.get_generic_host_entries()` loop with its `break` on the first
case-insensitive `NewHostName` match; the generator is consumed lazily, so
entries past the first match are never fetched. `target` is the already
lowercased device name. -/
def wol_name_scan (lookup : Nat → Except PyErr RawHostEntry)
    (target : String) : Nat → Nat → Option (Except PyErr (Option String))
  | 0, _ => none
  | fuel + 1, idx =>
    match lookup idx with
    | .ok entry =>
      if strLower entry.NewHostName == target then
        some (.ok (some entry.NewMACAddress))
      else wol_name_scan lookup target fuel (idx + 1)
    | .error e =>
      if e.isIndexError then some (.ok none) else some (.error e)

/-- `wake_host(fh, args)`: returns the trace of collaborator invocations
and the outcome (`woke mac` when `fh.wakeonlan_host(mac)` fires, recorded
as the final `.wake` trace entry). -/
def wake_host (env : WolEnv) (args : WolArgs) : List WolCall × WolOutcome :=
  if truthyArg args.device_mac_address then
    let mac := args.device_mac_address.getD ""
    ([.wake mac], .woke mac)
  else if truthyArg args.device_ip_address then
    let ip := args.device_ip_address.getD ""
    match env.ipLookup ip with
    | .ok host =>
      ([.lookupByIp ip, .wake host.NewMACAddress], .woke host.NewMACAddress)
    | .error e =>
      if e.isArgOrLookup then
        ([.lookupByIp ip],
          .failed (.fritz .argumentError ("Error: unknown IP " ++ ip)))
      else ([.lookupByIp ip], .failed e)
  else if truthyArg args.device_name then
    let name := args.device_name.getD ""
    match wol_name_scan env.indexLookup (strLower name) env.fuel 0 with
    | none => ([.enumEntries], .diverged)
    | some (.error e) => ([.enumEntries], .failed e)
    | some (.ok none) =>
      ([.enumEntries],
        .failed (.fritz .argumentError
          ("Error: unknown device name " ++ squote ++ name ++ squote)))
    | some (.ok (some mac)) => ([.enumEntries, .wake mac], .woke mac)
  else
    ([], .failed .unboundLocalError)

/-!
## FritzHosts.get_mesh_topology (fritzhosts.py lines 133-147)
-/

/-- The response object of the follow-up `session.get`: `ok` is the
requests success predicate, `jsonResult` the outcome of `.json()`. -/
structure HttpResp where
  ok : Bool
  status_code : Nat
  text : String
  jsonResult : Except PyErr Value

/-- The collaborators of `get_mesh_topology`: `meshListPath` stands for
`call_action("X_AVM-DE_GetMeshListPath")["NewX_AVM-DE_MeshListPath"]`,
`httpGet` for `self.fc.session.get(url)`. -/
structure MeshEnv where
  address : String
  port : String
  meshListPath : Except PyErr String
  httpGet : String → Except PyErr HttpResp

inductive MeshResult where
  | text (s : String)
  | json (v : Value)
deriving DecidableEq, Repr

def get_mesh_topology (env : MeshEnv) (raw : Bool) :
    Except PyErr MeshResult :=
  match env.meshListPath with
  | .error e => .error e
  | .ok path =>
    match env.httpGet (env.address ++ ":" ++ env.port ++ path) with
    | .error e => .error e
    | .ok response =>
      if !response.ok then
        .error (.fritz .actionError
          ("Error " ++ toString response.status_code ++
            ": Device has no access to topology information."))
      else if raw then .ok (.text response.text)
      else
        match response.jsonResult with
        | .ok v => .ok (.json v)
        | .error e => .error e

/-!
## parse_call_forwarding_list (fritzcallforwarding.py lines 92-116)

The XML collaborator `ET.fromstring` yields an element tree; the parser is
embedded on that tree (a malformed blob fails inside the collaborator and
propagates, which is outside this function's own logic). `findall('Item')`
and `find(tag)` match direct children only, in document order; `.text` is
`None` for an element with no text.
-/

/-- An XML element: tag, text content, direct children in document
order. -/
inductive XmlElem where
  | mk (tag : String) (text : Option String) (children : List XmlElem)

def XmlElem.tag : XmlElem → String
  | .mk t _ _ => t

def XmlElem.text : XmlElem → Option String
  | .mk _ t _ => t

def XmlElem.children : XmlElem → List XmlElem
  | .mk _ _ c => c

/-- `element.find(tag)`: first direct child with the given tag, if any. -/
def findChild (e : XmlElem) (tag : String) : Option XmlElem :=
  List.find? (fun c => c.tag == tag) e.children

/-- `element_tree.findall('Item')`: the direct children tagged `Item`, in
document order. -/
def findallItems (root : XmlElem) : List XmlElem :=
  List.filter (fun c => c.tag == "Item") root.children

/-- `element.find(tag).text`: AttributeError when the child is missing
(`find` returned `None`), otherwise the (possibly absent) text. -/
def childText (e : XmlElem) (tag : String) : Except PyErr (Option String) :=
  match findChild e tag with
  | none => .error .attributeError
  | some c => .ok c.text

/-- Digit run of a decimal literal after the first digit; a single
underscore is allowed between digits (Python 3 int()). -/
def parseIntAux : List Char → Nat → Option Nat
  | [], acc => some acc
  | c :: rest, acc =>
    if c.isDigit then parseIntAux rest (acc * 10 + (c.toNat - 48))
    else if c == '_' then
      match rest with
      | [] => none
      | d :: _ => if d.isDigit then parseIntAux rest acc else none
    else none

/-- Unsigned decimal literal: nonempty, starts with a digit. -/
def parseIntCore : List Char → Option Nat
  | [] => none
  | c :: rest =>
    if c.isDigit then parseIntAux rest (c.toNat - 48) else none

/-- Python `int(s)` on a decimal string literal: surrounding whitespace is
stripped, one optional sign, then a digit run (with single underscores
between digits); `none` models the ValueError raise. -/
def parsePythonInt (s : String) : Option Int :=
  let cs := List.dropWhile Char.isWhitespace s.toList
  let cs := List.reverse (List.dropWhile Char.isWhitespace cs.reverse)
  match cs with
  | '+' :: rest => Option.map Int.ofNat (parseIntCore rest)
  | '-' :: rest => Option.map (fun n => -(Int.ofNat n)) (parseIntCore rest)
  | rest => Option.map Int.ofNat (parseIntCore rest)

/-- `int(x)` where `x` is the optional text of an element: TypeError on
`None`, ValueError on a non-literal string. -/
def pyIntOfText : Option String → Except PyErr Int
  | none => .error .typeError
  | some s =>
    match parsePythonInt s with
    | none => .error .valueError
    | some n => .ok n

/-- The per-Item extraction of the parser loop body (fritzcallforwarding.py
lines 98-102), in source evaluation order; returns the extracted
`to_number` (used by the filter) alongside the constructed dict (lines
105-109 / 111-115, in insertion order). -/
def optV : Option String → Value
  | none => .null
  | some s => .str s

def parseItemPair (e : XmlElem) : Except PyErr (Option String × PyDict) :=
  match childText e "DeflectionId" with
  | .error err => .error err
  | .ok uid =>
    match childText e "Enable" with
    | .error err => .error err
    | .ok enableText =>
      match pyIntOfText enableText with
      | .error err => .error err
      | .ok enabled =>
        match childText e "Type" with
        | .error err => .error err
        | .ok connection_type =>
          match childText e "Number" with
          | .error err => .error err
          | .ok from_number =>
            match childText e "DeflectionToNumber" with
            | .error err => .error err
            | .ok to_number =>
              .ok (to_number,
                [ ("uid", optV uid),
                  ("from_number", optV from_number),
                  ("to_number", optV to_number),
                  ("connection_type", optV connection_type),
                  ("enabled", .int enabled) ])

/-- The `for element in element_tree.findall('Item')` loop with the
`filter_blocked` branch: a blocked entry (absent `to_number` text) is
still extracted (so its errors still raise) but not appended. -/
def parse_items (filter_blocked : Bool) :
    List XmlElem → Except PyErr (List PyDict)
  | [] => .ok []
  | e :: rest =>
    match parseItemPair e with
    | .error err => .error err
    | .ok pair =>
      match parse_items filter_blocked rest with
      | .error err => .error err
      | .ok tail =>
        if filter_blocked then
          if pair.1.isSome then .ok (pair.2 :: tail) else .ok tail
        else .ok (pair.2 :: tail)

/-- `parse_call_forwarding_list` on the parsed element tree. -/
def parse_call_forwarding_list (root : XmlElem) (filter_blocked : Bool) :
    Except PyErr (List PyDict) :=
  parse_items filter_blocked (findallItems root)

/-- An Item is well-formed for the parser when it carries all five child
elements and its `Enable` text parses as an integer literal. -/
def item_well_formed (e : XmlElem) : Bool :=
  (findChild e "DeflectionId").isSome &&
  (match findChild e "Enable" with
   | some c =>
     match c.text with
     | some s => (parsePythonInt s).isSome
     | none => false
   | none => false) &&
  (findChild e "Type").isSome &&
  (findChild e "Number").isSome &&
  (findChild e "DeflectionToNumber").isSome

/-- The text of the `tag` child of a well-formed Item. -/
def itemText (e : XmlElem) (tag : String) : Option String :=
  Option.bind (findChild e tag) XmlElem.text

/-- Whether an Item's `DeflectionToNumber` child is present with absent
(null) text: the "blocked number" shape the filter removes. -/
def itemBlocked (e : XmlElem) : Bool :=
  match findChild e "DeflectionToNumber" with
  | some c => c.text.isNone
  | none => false

/-- The record the parser constructs for a well-formed Item (specification
helper used to state the parser theorems). -/
def itemRecord (e : XmlElem) : PyDict :=
  [ ("uid", optV (itemText e "DeflectionId")),
    ("from_number", optV (itemText e "Number")),
    ("to_number", optV (itemText e "DeflectionToNumber")),
    ("connection_type", optV (itemText e "Type")),
    ("enabled", .int ((Option.bind (itemText e "Enable") parsePythonInt).getD 0)) ]

/-!
## Generic helpers and concrete test fixtures

The fixtures mirror the repository's own test data
(tests/cli/test_fritzwol.py): two known hosts, the second named
`thishost` with MAC `C0:FF:EE:C0:FF:EE`.
-/

/-- Whether an Except value is a success. -/
def exceptOk {α : Type} : Except PyErr α → Bool
  | .ok _ => true
  | .error _ => false

/-- Whether an optional dict value is an integer Python value. -/
def isIntValue : Option Value → Bool
  | some (.int _) => true
  | _ => false

def hostA : RawHostEntry :=
  { NewIPAddress := "192.168.178.10", NewHostName := "otherhost",
    NewMACAddress := "11:22:33:44:55:66", NewActive := false,
    NewInterfaceType := "Ethernet", NewAddressSource := "DHCP",
    NewLeaseTimeRemaining := 0 }

def hostB : RawHostEntry :=
  { NewIPAddress := "192.168.178.11", NewHostName := "thishost",
    NewMACAddress := "C0:FF:EE:C0:FF:EE", NewActive := true,
    NewInterfaceType := "Ethernet", NewAddressSource := "DHCP",
    NewLeaseTimeRemaining := 3600 }

/-- A router with exactly two known hosts: indices 0 and 1 resolve, index
2 (and above) signals IndexOutOfRange. -/
def lookupW : Nat → Except PyErr RawHostEntry := fun i =>
  if i = 0 then .ok hostA
  else if i = 1 then .ok hostB
  else .error (.fritz .indexOutOfRange "invalid index")

/-- A MAC lookup collaborator covering all outcome kinds of
`GetSpecificHostEntry`. -/
def macLookupW : String → Except PyErr RawHostEntry := fun mac =>
  if mac = "C0:FF:EE:C0:FF:EE" then .ok hostB
  else if mac = "zz:zz" then .error (.fritz .argumentError "bad mac")
  else if mac = "11:22:33:44:55:77" then .error (.fritz .lookUpError "unknown")
  else .error (.fritz .actionError "boom")

def wolEnvW : WolEnv :=
  { ipLookup := fun ip =>
      if ip = "127.0.0.1" then .ok hostB
      else .error (.fritz .lookUpError "unknown ip"),
    indexLookup := lookupW,
    fuel := 3 }

def respOkW : HttpResp :=
  { ok := true, status_code := 200, text := "topology text",
    jsonResult := .ok (.str "topology json") }

def respBadW : HttpResp :=
  { ok := false, status_code := 404, text := "not found",
    jsonResult := .error .valueError }

def meshEnvW : MeshEnv :=
  { address := "192.168.178.1", port := "49000",
    meshListPath := .ok "/meshlist.lua",
    httpGet := fun url =>
      if url = "192.168.178.1:49000/meshlist.lua" then .ok respOkW
      else .error (.fritz .actionError "no route") }

def meshEnvBadW : MeshEnv :=
  { address := "192.168.178.1", port := "49000",
    meshListPath := .ok "/meshlist.lua",
    httpGet := fun url =>
      if url = "192.168.178.1:49000/meshlist.lua" then .ok respBadW
      else .error (.fritz .actionError "no route") }

/-- A childless XML element with the given tag and text. -/
def elemT (tag : String) (text : Option String) : XmlElem :=
  .mk tag text []

/-- An Item element carrying all five children the parser reads. -/
def cfItemFull (uid en ty num dtn : Option String) : XmlElem :=
  .mk "Item" none
    [ elemT "DeflectionId" uid, elemT "Enable" en, elemT "Type" ty,
      elemT "Number" num, elemT "DeflectionToNumber" dtn ]

/-- An Item lacking the `Enable` child (but carrying the other four). -/
def cfItemNoEnable (uid ty num dtn : Option String) : XmlElem :=
  .mk "Item" none
    [ elemT "DeflectionId" uid, elemT "Type" ty,
      elemT "Number" num, elemT "DeflectionToNumber" dtn ]

/-- Three well-formed Items, the middle one blocked (DeflectionToNumber
present with absent text). -/
def cfRootW : XmlElem :=
  .mk "List" none
    [ cfItemFull (some "0") (some "1") (some "toVoIP") (some "5551") (some "9001"),
      cfItemFull (some "1") (some "0") (some "toVoIP") (some "5552") none,
      cfItemFull (some "2") (some "1") (some "toVoIP") (some "5553") (some "9003") ]

/-- Three Items, exactly one with absent DeflectionToNumber text, but the
third lacking its `Enable` child. -/
def cexRoot2 : XmlElem :=
  .mk "List" none
    [ cfItemFull (some "0") (some "1") (some "toVoIP") (some "5551") (some "9001"),
      cfItemFull (some "1") (some "0") (some "toVoIP") (some "5552") none,
      cfItemNoEnable (some "2") (some "toVoIP") (some "5553") (some "9003") ]

/-- A single well-formed Item with Enable text "1". -/
def cfRootC6 : XmlElem :=
  .mk "List" none
    [ cfItemFull (some "0") (some "1") (some "toVoIP") (some "5551") (some "9001") ]

/-- The record the parser builds for the single Item of `cfRootC6`. -/
def recC6 : PyDict :=
  [ ("uid", .str "0"), ("from_number", .str "5551"),
    ("to_number", .str "9001"), ("connection_type", .str "toVoIP"),
    ("enabled", .int 1) ]

/-!
## Theorems
-/

theorem gen_entries_go_spec (lookup : Nat → Except PyErr RawHostEntry)
    (msg : String) :
    ∀ (entries : List RawHostEntry) (fuel idx : Nat),
      (∀ i, (hi : i < entries.length) → lookup (idx + i) = .ok (entries.get ⟨i, hi⟩)) →
      lookup (idx + entries.length) = .error (.fritz .indexOutOfRange msg) →
      entries.length < fuel →
      gen_entries_go lookup fuel idx = some (.ok entries) := by
  intro entries
  induction entries with
  | nil =>
    intro fuel idx _ hend hfuel
    match fuel, hfuel with
    | fuel + 1, _ =>
      simp only [List.length_nil, Nat.add_zero] at hend
      simp [gen_entries_go, hend, PyErr.isIndexError]
  | cons h t ih =>
    intro fuel idx hok hend hfuel
    match fuel, hfuel with
    | fuel + 1, hfuel =>
      have h0 : lookup idx = .ok h := by
        have hx := hok 0 (by simp)
        simpa using hx
      have hrec : gen_entries_go lookup fuel (idx + 1) = some (.ok t) := by
        apply ih fuel (idx + 1)
        · intro i hi
          have hx := hok (i + 1) (by simpa using Nat.succ_lt_succ hi)
          have heq : idx + (i + 1) = idx + 1 + i := by omega
          rw [heq] at hx
          simpa using hx
        · have heq : idx + (h :: t).length = idx + 1 + t.length := by
            simp [List.length_cons]
            omega
          rw [heq] at hend
          exact hend
        · simp [List.length_cons] at hfuel
          omega
      simp [gen_entries_go, h0, hrec]

/-- C1: for a router where the per-index lookup succeeds for indices
0..n-1 and signals IndexOutOfRange at index n, `get_generic_host_entries`
yields exactly those n raw host dicts in index order and stops normally
(the IndexOutOfRange signal becomes end-of-sequence, not an error), and
every invocation is by definition the enumeration restarted at index 0. -/
theorem generic_host_entries_enumeration
    (lookup : Nat → Except PyErr RawHostEntry)
    (entries : List RawHostEntry) (msg : String) (fuel : Nat)
    (hok : ∀ i, (hi : i < entries.length) → lookup i = .ok (entries.get ⟨i, hi⟩))
    (hend : lookup entries.length = .error (.fritz .indexOutOfRange msg))
    (hfuel : entries.length < fuel) :
    get_generic_host_entries lookup fuel = some (.ok entries) ∧
    get_generic_host_entries lookup fuel = gen_entries_go lookup fuel 0 := by
  constructor
  · unfold get_generic_host_entries
    apply gen_entries_go_spec lookup msg entries fuel 0
    · intro i hi
      simpa using hok i hi
    · simpa using hend
    · exact hfuel
  · rfl

theorem generic_host_entries_enumeration_witness :
    get_generic_host_entries lookupW 3 = some (.ok [hostA, hostB]) :=
  (generic_host_entries_enumeration lookupW [hostA, hostB] "invalid index" 3
    (by intro i hi; simp only [List.length_cons, List.length_nil] at hi; interval_cases i <;> rfl)
    (by rfl)
    (by decide)).1

theorem hosts_info_go_spec (lookup : Nat → Except PyErr RawHostEntry)
    (msg : String) :
    ∀ (entries : List RawHostEntry) (fuel idx : Nat),
      (∀ i, (hi : i < entries.length) → lookup (idx + i) = .ok (entries.get ⟨i, hi⟩)) →
      lookup (idx + entries.length) = .error (.fritz .indexOutOfRange msg) →
      entries.length < fuel →
      hosts_info_go lookup fuel idx = some (.ok (List.map remap_host entries)) := by
  intro entries
  induction entries with
  | nil =>
    intro fuel idx _ hend hfuel
    match fuel, hfuel with
    | fuel + 1, _ =>
      simp only [List.length_nil, Nat.add_zero] at hend
      simp [hosts_info_go, hend, PyErr.isIndexError]
  | cons h t ih =>
    intro fuel idx hok hend hfuel
    match fuel, hfuel with
    | fuel + 1, hfuel =>
      have h0 : lookup idx = .ok h := by
        have hx := hok 0 (by simp)
        simpa using hx
      have hrec : hosts_info_go lookup fuel (idx + 1) = some (.ok (List.map remap_host t)) := by
        apply ih fuel (idx + 1)
        · intro i hi
          have hx := hok (i + 1) (by simpa using Nat.succ_lt_succ hi)
          have heq : idx + (i + 1) = idx + 1 + i := by omega
          rw [heq] at hx
          simpa using hx
        · have heq : idx + (h :: t).length = idx + 1 + t.length := by
            simp [List.length_cons]
            omega
          rw [heq] at hend
          exact hend
        · simp [List.length_cons] at hfuel
          omega
      simp [hosts_info_go, h0, hrec]

/-- The canonical keys of a HostRecord dict, in insertion order
(fritzhosts.py lines 120-130). -/
def canonicalKeys : List String :=
  [ "ip", "name", "mac", "status", "interface_type",
    "address_source", "lease_time_remaining" ]

/-- C4: under the indexed enumeration, `get_hosts_info` returns one dict
per raw entry, in enumeration order, each dict being the re-keying of the
corresponding raw entry, and every returned dict has exactly the seven
canonical keys (no more, no fewer). -/
theorem hosts_info_mapping
    (lookup : Nat → Except PyErr RawHostEntry)
    (entries : List RawHostEntry) (msg : String) (fuel : Nat)
    (hok : ∀ i, (hi : i < entries.length) → lookup i = .ok (entries.get ⟨i, hi⟩))
    (hend : lookup entries.length = .error (.fritz .indexOutOfRange msg))
    (hfuel : entries.length < fuel) :
    get_hosts_info lookup fuel = some (.ok (List.map remap_host entries)) ∧
    ∀ d ∈ List.map remap_host entries, dictKeys d = canonicalKeys := by
  constructor
  · unfold get_hosts_info
    apply hosts_info_go_spec lookup msg entries fuel 0
    · intro i hi
      simpa using hok i hi
    · simpa using hend
    · exact hfuel
  · intro d hd
    obtain ⟨h, _, rfl⟩ := List.mem_map.mp hd
    rfl

theorem hosts_info_mapping_witness :
    get_hosts_info lookupW 3 = some (.ok [remap_host hostA, remap_host hostB]) ∧
    dictKeys (remap_host hostA) = canonicalKeys :=
  ⟨(hosts_info_mapping lookupW [hostA, hostB] "invalid index" 3
      (by intro i hi; simp only [List.length_cons, List.length_nil] at hi; interval_cases i <;> rfl)
      (by rfl)
      (by decide)).1,
   (hosts_info_mapping lookupW [hostA, hostB] "invalid index" 3
      (by intro i hi; simp only [List.length_cons, List.length_nil] at hi; interval_cases i <;> rfl)
      (by rfl)
      (by decide)).2 (remap_host hostA) (by simp)⟩

/-- C5: `get_active_hosts` equals `get_hosts_info` filtered to the records
whose `status` value is truthy; the result is a subsequence (order
preserved) containing exactly the status-true records. -/
theorem active_hosts_filter
    (lookup : Nat → Except PyErr RawHostEntry) (fuel : Nat)
    (info : List PyDict)
    (hinfo : get_hosts_info lookup fuel = some (.ok info)) :
    get_active_hosts lookup fuel = some (.ok (List.filter status_truthy info)) ∧
    List.Sublist (List.filter status_truthy info) info ∧
    ∀ d, d ∈ List.filter status_truthy info ↔ (d ∈ info ∧ status_truthy d = true) := by
  refine ⟨?_, List.filter_sublist info, ?_⟩
  · unfold get_active_hosts
    rw [hinfo]
  · intro d
    simp [List.mem_filter]

theorem active_hosts_filter_witness :
    get_active_hosts lookupW 3 = some (.ok [remap_host hostB]) := by
  have h := (active_hosts_filter lookupW 3 [remap_host hostA, remap_host hostB] rfl).1
  rw [h]
  rfl

/-- C3: `get_host_status` returns the looked-up entry's active flag on
success, returns null (no exception) when the lookup raises ArgumentError
or LookUpError, and propagates every other error kind unchanged. -/
theorem host_status_swallowing
    (lookupMac : String → Except PyErr RawHostEntry) (mac : String) :
    (∀ entry : RawHostEntry, lookupMac mac = .ok entry →
       get_host_status lookupMac mac = .ok (some entry.NewActive)) ∧
    (∀ msg : String, lookupMac mac = .error (.fritz .argumentError msg) →
       get_host_status lookupMac mac = .ok none) ∧
    (∀ msg : String, lookupMac mac = .error (.fritz .lookUpError msg) →
       get_host_status lookupMac mac = .ok none) ∧
    (∀ e : PyErr, lookupMac mac = .error e → e.isArgOrLookup = false →
       get_host_status lookupMac mac = .error e) := by
  refine ⟨?_, ?_, ?_, ?_⟩
  · intro entry h
    simp [get_host_status, h]
  · intro msg h
    simp [get_host_status, h, PyErr.isArgOrLookup]
  · intro msg h
    simp [get_host_status, h, PyErr.isArgOrLookup]
  · intro e h hn
    simp [get_host_status, h, hn]

theorem host_status_swallowing_witness :
    get_host_status macLookupW "C0:FF:EE:C0:FF:EE" = .ok (some true) ∧
    get_host_status macLookupW "zz:zz" = .ok none ∧
    get_host_status macLookupW "11:22:33:44:55:77" = .ok none ∧
    get_host_status macLookupW "other" = .error (.fritz .actionError "boom") :=
  ⟨(host_status_swallowing macLookupW "C0:FF:EE:C0:FF:EE").1 hostB rfl,
   (host_status_swallowing macLookupW "zz:zz").2.1 "bad mac" rfl,
   (host_status_swallowing macLookupW "11:22:33:44:55:77").2.2.1 "unknown" rfl,
   (host_status_swallowing macLookupW "other").2.2.2 (.fritz .actionError "boom") rfl rfl⟩

theorem wol_name_scan_spec (lookup : Nat → Except PyErr RawHostEntry)
    (target : String) (msg : String) :
    ∀ (entries : List RawHostEntry) (fuel idx : Nat),
      (∀ i, (hi : i < entries.length) → lookup (idx + i) = .ok (entries.get ⟨i, hi⟩)) →
      lookup (idx + entries.length) = .error (.fritz .indexOutOfRange msg) →
      entries.length < fuel →
      wol_name_scan lookup target fuel idx =
        some (.ok (Option.map RawHostEntry.NewMACAddress
          (List.find? (fun e => strLower e.NewHostName == target) entries))) := by
  intro entries
  induction entries with
  | nil =>
    intro fuel idx _ hend hfuel
    match fuel, hfuel with
    | fuel + 1, _ =>
      simp only [List.length_nil, Nat.add_zero] at hend
      simp [wol_name_scan, hend, PyErr.isIndexError]
  | cons h t ih =>
    intro fuel idx hok hend hfuel
    match fuel, hfuel with
    | fuel + 1, hfuel =>
      have h0 : lookup idx = .ok h := by
        have hx := hok 0 (by simp)
        simpa using hx
      have hrec : wol_name_scan lookup target fuel (idx + 1) =
          some (.ok (Option.map RawHostEntry.NewMACAddress
            (List.find? (fun e => strLower e.NewHostName == target) t))) := by
        apply ih fuel (idx + 1)
        · intro i hi
          have hx := hok (i + 1) (by simpa using Nat.succ_lt_succ hi)
          have heq : idx + (i + 1) = idx + 1 + i := by omega
          rw [heq] at hx
          simpa using hx
        · have heq : idx + (h :: t).length = idx + 1 + t.length := by
            simp [List.length_cons]
            omega
          rw [heq] at hend
          exact hend
        · simp [List.length_cons] at hfuel
          omega
      by_cases hm : (strLower h.NewHostName == target) = true
      · simp [wol_name_scan, h0, hm, List.find?]
      · simp only [Bool.not_eq_true] at hm
        simp [wol_name_scan, h0, hm, hrec, List.find?]

/-- C7: wake-host resolution. With a MAC the trigger fires on exactly that
MAC with no lookup call; with an IP resolving to a host, exactly one
IP-lookup call occurs and the trigger fires on that host's MAC; with a
name, the generator is scanned case-insensitively and the first matching
entry's MAC is woken, with neither other path executing (the invocation
trace is exactly as stated in each case). -/
theorem wake_host_resolution :
    (∀ (env : WolEnv) (mac : String), mac ≠ "" →
       wake_host env ⟨some mac, none, none⟩ = ([.wake mac], .woke mac)) ∧
    (∀ (env : WolEnv) (ip : String) (host : RawHostEntry), ip ≠ "" →
       env.ipLookup ip = .ok host →
       wake_host env ⟨none, some ip, none⟩ =
         ([.lookupByIp ip, .wake host.NewMACAddress], .woke host.NewMACAddress)) ∧
    (∀ (env : WolEnv) (name : String) (entries : List RawHostEntry)
        (msg : String) (entry : RawHostEntry), name ≠ "" →
       (∀ i, (hi : i < entries.length) → env.indexLookup i = .ok (entries.get ⟨i, hi⟩)) →
       env.indexLookup entries.length = .error (.fritz .indexOutOfRange msg) →
       entries.length < env.fuel →
       List.find? (fun e => strLower e.NewHostName == strLower name) entries = some entry →
       wake_host env ⟨none, none, some name⟩ =
         ([.enumEntries, .wake entry.NewMACAddress], .woke entry.NewMACAddress)) := by
  refine ⟨?_, ?_, ?_⟩
  · intro env mac hmac
    simp [wake_host, truthyArg, hmac]
  · intro env ip host hip hlook
    simp [wake_host, truthyArg, hip, hlook]
  · intro env name entries msg entry hname hok hend hfuel hfind
    have hscan := wol_name_scan_spec env.indexLookup (strLower name) msg entries env.fuel 0
      (by intro i hi; simpa using hok i hi)
      (by simpa using hend)
      hfuel
    rw [hfind] at hscan
    simp [wake_host, truthyArg, hname, hscan]

theorem wake_host_resolution_witness :
    wake_host wolEnvW ⟨some "C0:FF:EE:C0:FF:EE", none, none⟩ =
      ([.wake "C0:FF:EE:C0:FF:EE"], .woke "C0:FF:EE:C0:FF:EE") ∧
    wake_host wolEnvW ⟨none, some "127.0.0.1", none⟩ =
      ([.lookupByIp "127.0.0.1", .wake "C0:FF:EE:C0:FF:EE"], .woke "C0:FF:EE:C0:FF:EE") ∧
    wake_host wolEnvW ⟨none, none, some "Thishost"⟩ =
      ([.enumEntries, .wake "C0:FF:EE:C0:FF:EE"], .woke "C0:FF:EE:C0:FF:EE") :=
  ⟨wake_host_resolution.1 wolEnvW "C0:FF:EE:C0:FF:EE" (by decide),
   wake_host_resolution.2.1 wolEnvW "127.0.0.1" hostB (by decide) rfl,
   wake_host_resolution.2.2 wolEnvW "Thishost" [hostA, hostB] "invalid index" hostB
     (by decide)
     (by intro i hi; simp only [List.length_cons, List.length_nil] at hi; interval_cases i <;> rfl)
     (by rfl)
     (by decide)
     (by rfl)⟩

/-- C8: wake-host failure paths. An IP lookup failing with ArgumentError
or LookUpError is translated into a fresh ArgumentError naming the unknown
IP; a name matching no enumerated entry fails with ArgumentError naming
the unknown device name; in both cases the invocation trace contains no
wake call. -/
theorem wake_host_failures :
    (∀ (env : WolEnv) (ip : String) (e : PyErr), ip ≠ "" →
       env.ipLookup ip = .error e → e.isArgOrLookup = true →
       wake_host env ⟨none, some ip, none⟩ =
         ([.lookupByIp ip],
           .failed (.fritz .argumentError ("Error: unknown IP " ++ ip)))) ∧
    (∀ (env : WolEnv) (name : String) (entries : List RawHostEntry)
        (msg : String), name ≠ "" →
       (∀ i, (hi : i < entries.length) → env.indexLookup i = .ok (entries.get ⟨i, hi⟩)) →
       env.indexLookup entries.length = .error (.fritz .indexOutOfRange msg) →
       entries.length < env.fuel →
       List.find? (fun e => strLower e.NewHostName == strLower name) entries = none →
       wake_host env ⟨none, none, some name⟩ =
         ([.enumEntries],
           .failed (.fritz .argumentError
             ("Error: unknown device name " ++ squote ++ name ++ squote)))) := by
  refine ⟨?_, ?_⟩
  · intro env ip e hip hlook harg
    simp [wake_host, truthyArg, hip, hlook, harg]
  · intro env name entries msg hname hok hend hfuel hfind
    have hscan := wol_name_scan_spec env.indexLookup (strLower name) msg entries env.fuel 0
      (by intro i hi; simpa using hok i hi)
      (by simpa using hend)
      hfuel
    rw [hfind] at hscan
    simp [wake_host, truthyArg, hname, hscan]

theorem wake_host_failures_witness :
    wake_host wolEnvW ⟨none, some "10.0.0.9", none⟩ =
      ([.lookupByIp "10.0.0.9"],
        .failed (.fritz .argumentError ("Error: unknown IP " ++ "10.0.0.9"))) ∧
    wake_host wolEnvW ⟨none, none, some "nosuchhost"⟩ =
      ([.enumEntries],
        .failed (.fritz .argumentError
          ("Error: unknown device name " ++ squote ++ "nosuchhost" ++ squote))) :=
  ⟨wake_host_failures.1 wolEnvW "10.0.0.9" (.fritz .lookUpError "unknown ip")
     (by decide) rfl rfl,
   wake_host_failures.2 wolEnvW "nosuchhost" [hostA, hostB] "invalid index"
     (by decide)
     (by intro i hi; simp only [List.length_cons, List.length_nil] at hi; interval_cases i <;> rfl)
     (by rfl)
     (by decide)
     (by rfl)⟩

/-- C9: `get_mesh_topology` obtains a path from the SOAP action, performs
the follow-up GET on address:port+path, raises ActionError (returning
nothing) whenever that response is not a success, and on success returns
the raw text body when `raw` is true and the parsed JSON body when `raw`
is false. -/
theorem mesh_topology_behaviour (env : MeshEnv) (path : String)
    (resp : HttpResp)
    (hpath : env.meshListPath = .ok path)
    (hget : env.httpGet (env.address ++ ":" ++ env.port ++ path) = .ok resp) :
    (resp.ok = false → ∀ raw : Bool, get_mesh_topology env raw =
       .error (.fritz .actionError
         ("Error " ++ toString resp.status_code ++
           ": Device has no access to topology information."))) ∧
    (resp.ok = true → get_mesh_topology env true = .ok (.text resp.text)) ∧
    (resp.ok = true → ∀ v : Value, resp.jsonResult = .ok v →
       get_mesh_topology env false = .ok (.json v)) := by
  refine ⟨?_, ?_, ?_⟩
  · intro hbad raw
    simp [get_mesh_topology, hpath, hget, hbad]
  · intro hgood
    simp [get_mesh_topology, hpath, hget, hgood]
  · intro hgood v hv
    simp [get_mesh_topology, hpath, hget, hgood, hv]

theorem mesh_topology_behaviour_witness :
    get_mesh_topology meshEnvW true = .ok (.text "topology text") ∧
    get_mesh_topology meshEnvW false = .ok (.json (.str "topology json")) ∧
    get_mesh_topology meshEnvBadW false =
      .error (.fritz .actionError
        ("Error " ++ toString (404 : Nat) ++
          ": Device has no access to topology information.")) :=
  ⟨(mesh_topology_behaviour meshEnvW "/meshlist.lua" respOkW rfl rfl).2.1 rfl,
   (mesh_topology_behaviour meshEnvW "/meshlist.lua" respOkW rfl rfl).2.2 rfl
     (.str "topology json") rfl,
   (mesh_topology_behaviour meshEnvBadW "/meshlist.lua" respBadW rfl rfl).1 rfl false⟩

theorem parseItemPair_isOk (e : XmlElem) :
    exceptOk (parseItemPair e) = item_well_formed e := by
  unfold parseItemPair item_well_formed
  cases h1 : findChild e "DeflectionId" with
  | none => simp [childText, h1, exceptOk]
  | some c1 =>
    cases h2 : findChild e "Enable" with
    | none => simp [childText, h1, h2, exceptOk]
    | some c2 =>
      cases ht : c2.text with
      | none => simp [childText, h1, h2, ht, pyIntOfText, exceptOk]
      | some s =>
        cases hp : parsePythonInt s with
        | none => simp [childText, h1, h2, ht, hp, pyIntOfText, exceptOk]
        | some n =>
          cases h3 : findChild e "Type" with
          | none => simp [childText, h1, h2, ht, hp, h3, pyIntOfText, exceptOk]
          | some c3 =>
            cases h4 : findChild e "Number" with
            | none => simp [childText, h1, h2, ht, hp, h3, h4, pyIntOfText, exceptOk]
            | some c4 =>
              cases h5 : findChild e "DeflectionToNumber" with
              | none => simp [childText, h1, h2, ht, hp, h3, h4, h5, pyIntOfText, exceptOk]
              | some c5 => simp [childText, h1, h2, ht, hp, h3, h4, h5, pyIntOfText, exceptOk]

theorem parseItemPair_wf (e : XmlElem) (hwf : item_well_formed e = true) :
    parseItemPair e = .ok (itemText e "DeflectionToNumber", itemRecord e) := by
  unfold item_well_formed at hwf
  simp only [Bool.and_eq_true] at hwf
  obtain ⟨⟨⟨⟨h1, h2⟩, h3⟩, h4⟩, h5⟩ := hwf
  obtain ⟨c1, hc1⟩ := Option.isSome_iff_exists.mp h1
  obtain ⟨c3, hc3⟩ := Option.isSome_iff_exists.mp h3
  obtain ⟨c4, hc4⟩ := Option.isSome_iff_exists.mp h4
  obtain ⟨c5, hc5⟩ := Option.isSome_iff_exists.mp h5
  rcases he : findChild e "Enable" with _ | c2
  · rw [he] at h2
    simp at h2
  · rw [he] at h2
    have h2x : (match c2.text with
      | some s => (parsePythonInt s).isSome
      | none => false) = true := h2
    rcases hte : c2.text with _ | s
    · rw [hte] at h2x
      simp at h2x
    · rw [hte] at h2x
      obtain ⟨n, hn⟩ := Option.isSome_iff_exists.mp h2x
      unfold parseItemPair itemRecord itemText
      simp [childText, hc1, hc3, hc4, hc5, he, hte, pyIntOfText, hn]

theorem parse_items_isOk (fb : Bool) :
    ∀ items : List XmlElem,
      exceptOk (parse_items fb items) = List.all items item_well_formed := by
  intro items
  induction items with
  | nil => simp [parse_items, exceptOk]
  | cons e rest ih =>
    rw [List.all_cons, ← parseItemPair_isOk e, ← ih]
    cases hp : parseItemPair e with
    | error err => simp [parse_items, hp, exceptOk]
    | ok pair =>
      cases ht : parse_items fb rest with
      | error err => simp [parse_items, hp, ht, exceptOk]
      | ok tail =>
        simp only [parse_items, hp, ht, exceptOk, Bool.true_and]
        cases fb with
        | false => simp [exceptOk]
        | true =>
          cases hps : pair.1.isSome <;> simp [exceptOk]

theorem itemText_dtn_isSome (e : XmlElem)
    (h : (findChild e "DeflectionToNumber").isSome = true) :
    (itemText e "DeflectionToNumber").isSome = !(itemBlocked e) := by
  obtain ⟨c, hc⟩ := Option.isSome_iff_exists.mp h
  unfold itemText itemBlocked
  rw [hc]
  cases c.text <;> simp

theorem parse_items_wf_false :
    ∀ items : List XmlElem, (∀ e ∈ items, item_well_formed e = true) →
      parse_items false items = .ok (List.map itemRecord items) := by
  intro items
  induction items with
  | nil => intro _; rfl
  | cons e rest ih =>
    intro hwf
    have he := parseItemPair_wf e (hwf e (List.mem_cons_self e rest))
    have hr := ih (fun x hx => hwf x (List.mem_cons_of_mem e hx))
    simp [parse_items, he, hr]

theorem parse_items_wf_true :
    ∀ items : List XmlElem, (∀ e ∈ items, item_well_formed e = true) →
      parse_items true items =
        .ok (List.map itemRecord (List.filter (fun e => !(itemBlocked e)) items)) := by
  intro items
  induction items with
  | nil => intro _; rfl
  | cons e rest ih =>
    intro hwf
    have hwfe := hwf e (List.mem_cons_self e rest)
    have he := parseItemPair_wf e hwfe
    have hr := ih (fun x hx => hwf x (List.mem_cons_of_mem e hx))
    have hdtn : (findChild e "DeflectionToNumber").isSome = true := by
      unfold item_well_formed at hwfe
      simp only [Bool.and_eq_true] at hwfe
      exact hwfe.2
    have hsome := itemText_dtn_isSome e hdtn
    cases hb : itemBlocked e with
    | true =>
      rw [hb] at hsome
      simp only [Bool.not_true] at hsome
      simp [parse_items, he, hr, hsome, List.filter_cons, hb]
    | false =>
      rw [hb] at hsome
      simp only [Bool.not_false] at hsome
      simp [parse_items, he, hr, hsome, List.filter_cons, hb]

theorem parse_items_mem (fb : Bool) :
    ∀ (items : List XmlElem) (recs : List PyDict),
      parse_items fb items = .ok recs →
      ∀ r ∈ recs, ∃ e pair, e ∈ items ∧ parseItemPair e = .ok pair ∧ r = pair.2 := by
  intro items
  induction items with
  | nil =>
    intro recs hp r hr
    simp only [parse_items, Except.ok.injEq] at hp
    rw [← hp] at hr
    simp at hr
  | cons e rest ih =>
    intro recs hp r hr
    cases hpe : parseItemPair e with
    | error err => simp [parse_items, hpe] at hp
    | ok pair =>
      cases hpr : parse_items fb rest with
      | error err => simp [parse_items, hpe, hpr] at hp
      | ok tail =>
        have hlift : ∀ r2 ∈ tail,
            ∃ e2 pair2, e2 ∈ e :: rest ∧ parseItemPair e2 = .ok pair2 ∧ r2 = pair2.2 := by
          intro r2 hr2
          obtain ⟨e2, pair2, hm2, ho2, hq2⟩ := ih tail hpr r2 hr2
          exact ⟨e2, pair2, List.mem_cons_of_mem e hm2, ho2, hq2⟩
        simp only [parse_items, hpe, hpr] at hp
        split at hp
        · split at hp
          · simp only [Except.ok.injEq] at hp
            rw [← hp] at hr
            rcases List.mem_cons.mp hr with hhead | htail
            · exact ⟨e, pair, List.mem_cons_self e rest, hpe, hhead⟩
            · exact hlift r htail
          · simp only [Except.ok.injEq] at hp
            rw [← hp] at hr
            exact hlift r hr
        · simp only [Except.ok.injEq] at hp
          rw [← hp] at hr
          rcases List.mem_cons.mp hr with hhead | htail
          · exact ⟨e, pair, List.mem_cons_self e rest, hpe, hhead⟩
          · exact hlift r htail

theorem length_filter_not (p : XmlElem → Bool) :
    ∀ l : List XmlElem,
      List.length (List.filter (fun e => !(p e)) l) + List.countP p l =
        List.length l := by
  intro l
  induction l with
  | nil => simp
  | cons a t ih =>
    cases hp : p a <;>
      simp [List.filter_cons, List.countP_cons, hp] <;>
      omega

/-- C10: `parse_call_forwarding_list` is partial even on well-formed XML:
it returns normally exactly when every Item carries all five child
elements (DeflectionId, Enable, Type, Number, DeflectionToNumber) and an
integer-parsable Enable text; otherwise the attribute access on the null
`find` result or the int() conversion raises, so no partial list is ever
returned — regardless of the filter flag. -/
theorem parser_partiality (root : XmlElem) (filter_blocked : Bool) :
    exceptOk (parse_call_forwarding_list root filter_blocked) =
      List.all (findallItems root) item_well_formed :=
  parse_items_isOk filter_blocked (findallItems root)

/-- C2 as universally stated is false: `cexRoot2` has three Item children,
exactly one of which has a DeflectionToNumber with absent text, yet both
parse variants raise AttributeError (its third Item lacks the Enable
child) instead of returning 2 resp. 3 records. -/
theorem parse_counts_counterexample :
    List.length (findallItems cexRoot2) = 3 ∧
    List.map itemBlocked (findallItems cexRoot2) = [false, true, false] ∧
    parse_call_forwarding_list cexRoot2 true = .error .attributeError ∧
    parse_call_forwarding_list cexRoot2 false = .error .attributeError ∧
    exceptOk (parse_call_forwarding_list cexRoot2 true) = false ∧
    exceptOk (parse_call_forwarding_list cexRoot2 false) = false :=
  ⟨rfl, rfl, rfl, rfl, rfl, rfl⟩

/-- C2 amended: for a root with three Item elements that all carry the
five child elements with integer-parsable Enable text, exactly one of
which has a DeflectionToNumber with absent text, parse with
filter_blocked=false returns all 3 records and with filter_blocked=true
the 2 records whose DeflectionToNumber text is present; both outputs are
in document order (itemRecord mapped over the document-ordered, resp.
filtered, Item list). -/
theorem parse_counts (root : XmlElem)
    (hwf : ∀ e ∈ findallItems root, item_well_formed e = true)
    (hlen : List.length (findallItems root) = 3)
    (hone : List.countP itemBlocked (findallItems root) = 1) :
    parse_call_forwarding_list root false =
      .ok (List.map itemRecord (findallItems root)) ∧
    List.length (List.map itemRecord (findallItems root)) = 3 ∧
    parse_call_forwarding_list root true =
      .ok (List.map itemRecord
        (List.filter (fun e => !(itemBlocked e)) (findallItems root))) ∧
    List.length (List.map itemRecord
      (List.filter (fun e => !(itemBlocked e)) (findallItems root))) = 2 := by
  refine ⟨parse_items_wf_false (findallItems root) hwf, ?_,
    parse_items_wf_true (findallItems root) hwf, ?_⟩
  · simp [hlen]
  · have h := length_filter_not itemBlocked (findallItems root)
    rw [hlen, hone] at h
    simp only [List.length_map]
    omega

theorem parse_counts_witness :
    parse_call_forwarding_list cfRootW false =
      .ok (List.map itemRecord (findallItems cfRootW)) ∧
    List.length (List.map itemRecord
      (List.filter (fun e => !(itemBlocked e)) (findallItems cfRootW))) = 2 :=
  ⟨(parse_counts cfRootW (by decide) (by rfl) (by rfl)).1,
   (parse_counts cfRootW (by decide) (by rfl) (by rfl)).2.2.2⟩

/-- C6 as stated is false: the parser stores `int(Enable text)` without
any boolean coercion, so the enabled value of the record parsed from
`cfRootC6` is the Python integer 1, which is not a boolean value. -/
theorem enabled_bool_counterexample :
    parse_call_forwarding_list cfRootC6 true = .ok [recC6] ∧
    dictGet recC6 "enabled" = some (.int 1) ∧
    Value.int 1 ≠ Value.bool true ∧
    Value.int 1 ≠ Value.bool false :=
  ⟨rfl, rfl, by decide, by decide⟩

/-- C6 amended: the constructed record's enabled field is the Enable
child's text content coerced to an integer (Python int()), and every
output record's enabled field is an integer value (not a boolean). -/
theorem enabled_integer_coercion :
    (∀ (e : XmlElem) (pair : Option String × PyDict),
       parseItemPair e = .ok pair →
       dictGet pair.2 "enabled" =
         some (.int ((Option.bind (itemText e "Enable") parsePythonInt).getD 0)) ∧
       (Option.bind (itemText e "Enable") parsePythonInt).isSome = true) ∧
    (∀ (root : XmlElem) (fb : Bool) (recs : List PyDict) (r : PyDict),
       parse_call_forwarding_list root fb = .ok recs → r ∈ recs →
       isIntValue (dictGet r "enabled") = true) := by
  constructor
  · intro e pair hok
    have hwf : item_well_formed e = true := by
      rw [← parseItemPair_isOk e, hok]
      rfl
    have hpw := parseItemPair_wf e hwf
    rw [hok] at hpw
    injection hpw with hpair
    constructor
    · rw [hpair]
      rfl
    · unfold item_well_formed at hwf
      simp only [Bool.and_eq_true] at hwf
      obtain ⟨⟨⟨⟨_, h2⟩, _⟩, _⟩, _⟩ := hwf
      rcases he : findChild e "Enable" with _ | c2
      · rw [he] at h2
        simp at h2
      · rw [he] at h2
        have h2x : (match c2.text with
          | some s => (parsePythonInt s).isSome
          | none => false) = true := h2
        rcases hte : c2.text with _ | s
        · rw [hte] at h2x
          simp at h2x
        · rw [hte] at h2x
          unfold itemText
          rw [he]
          simp [hte]
          exact h2x
  · intro root fb recs r hok hr
    obtain ⟨e, pair, _, hpe, hre⟩ :=
      parse_items_mem fb (findallItems root) recs hok r hr
    have hwf : item_well_formed e = true := by
      rw [← parseItemPair_isOk e, hpe]
      rfl
    have hpw := parseItemPair_wf e hwf
    rw [hpe] at hpw
    injection hpw with hpair
    rw [hre, hpair]
    rfl

theorem enabled_integer_coercion_witness :
    isIntValue (dictGet recC6 "enabled") = true :=
  enabled_integer_coercion.2 cfRootC6 true [recC6] recC6 rfl (by simp)
